import Mathlib

/-
Verification development for the ai-code-review-agent repository.

The definitions below are a shallow embedding of the Python sources:
  * src/core/schemas.py        (Severity, AgentType, Issue, AgentResult)
  * src/agents/base_agent.py   (BaseAgent.review)
  * src/core/orchestrator.py   (AgentOrchestrator.review_code)
  * src/utils/static_analysis.py (run_pylint, run_flake8, run_bandit, run_radon)
  * src/agents/quality_agent.py, performance_agent.py (radon complexity sections)
  * src/agents/security_agent.py (_check_insecure_random)
  * src/agents/documentation_agent.py (analyze and its four checks)
  * src/api/routes/reviews.py  (create_review local mode, multi-file aggregation,
                                get_review, clear_all_reviews)

Python floats (wall-clock times) are modelled as rationals; Python dicts with
string keys are modelled as insertion-ordered association lists (assignment to
an existing key keeps its position, a new key is appended, matching CPython
dict semantics); Python exceptions are modelled with Except.
-/

/-- Severity enum from src/core/schemas.py. -/
inductive Severity where
  | critical
  | high
  | medium
  | low
  | info
deriving DecidableEq, Repr

/-- The string value of a Severity member. -/
def Severity.value : Severity → String
  | .critical => "critical"
  | .high => "high"
  | .medium => "medium"
  | .low => "low"
  | .info => "info"

/-- AgentType enum from src/core/schemas.py, in declaration order. -/
inductive AgentType where
  | quality
  | security
  | performance
  | documentation
deriving DecidableEq, Repr

/-- The string value of an AgentType member. -/
def AgentType.value : AgentType → String
  | .quality => "quality"
  | .security => "security"
  | .performance => "performance"
  | .documentation => "documentation"

/-- A JSON-ish metadata value (Python dict values are heterogeneous). -/
inductive MetaVal where
  | str (s : String)
  | int (n : Int)
deriving DecidableEq, Repr

/-- A string-keyed Python dict, as an insertion-ordered association list. -/
abbrev MetaDict := List (String × MetaVal)

/-- Issue model from src/core/schemas.py. -/
structure Issue where
  severity : Severity
  issue_type : String
  message : String
  line_number : Option Int := none
  suggestion : Option String := none
  metadata : Option MetaDict := none
deriving DecidableEq, Repr

/-- AgentResult model from src/core/schemas.py.  metadata values here are all
strings (the static descriptor), so a string-to-string dict suffices. -/
structure AgentResult where
  agent_type : AgentType
  success : Bool
  execution_time : ℚ
  issues : List Issue
  error_message : Option String := none
  metadata : Option (List (String × String)) := none
deriving DecidableEq, Repr

/-- BaseAgent._get_metadata from src/agents/base_agent.py. -/
def getAgentMetadata (t : AgentType) : List (String × String) :=
  [("agent_type", t.value), ("version", "1.0.0")]

/-- BaseAgent.review from src/agents/base_agent.py.  The analyze call is shallowly
embedded as its outcome: .ok with the issues it returned, or .error with the
stringified exception it raised.  t0 and t1 are the two time.time() samples taken
just before and just after the analyze call. -/
def baseAgentReview (agent_type : AgentType) (analyzeOutcome : Except String (List Issue))
    (t0 t1 : ℚ) : AgentResult :=
  match analyzeOutcome with
  | .ok issues =>
      { agent_type := agent_type
        success := true
        execution_time := t1 - t0
        issues := issues
        error_message := none
        metadata := some (getAgentMetadata agent_type) }
  | .error e =>
      { agent_type := agent_type
        success := false
        execution_time := t1 - t0
        issues := []
        error_message := some e
        metadata := some (getAgentMetadata agent_type) }

/-- list(AgentType): the four agent types in declaration order.  Also the key list
of AgentOrchestrator.agents from src/core/orchestrator.py. -/
def allAgentTypes : List AgentType :=
  [.quality, .security, .performance, .documentation]

/-- The result-processing loop of AgentOrchestrator.review_code: pairs the i-th
gathered outcome with agent_types[i]; an outcome that is an exception is replaced
by a synthesized failed AgentResult. -/
def handleGathered : List (Except String AgentResult) → List AgentType → List AgentResult
  | [], _ => []
  | _, [] => []
  | r :: rs, t :: ts =>
      (match r with
       | .ok res => res
       | .error e =>
           { agent_type := t
             success := false
             execution_time := 0
             issues := []
             error_message := some e
             metadata := none }) :: handleGathered rs ts

/-- AgentOrchestrator.review_code from src/core/orchestrator.py.  The concurrent
agents are shallowly embedded by reviewOf, giving each agent review call's
outcome (asyncio.gather with return_exceptions=True yields, in task order,
either the AgentResult or the exception the task raised). -/
def review_code (reviewOf : AgentType → Except String AgentResult)
    (agent_types : Option (List AgentType)) : List AgentResult :=
  let ats := match agent_types with
    | none => allAgentTypes
    | some l => l
  let tasks := ats.filter (fun t => allAgentTypes.contains t)
  handleGathered (tasks.map reviewOf) ats

/-- Python str.startswith, over the character list (so that it computes). -/
def pyStartsWith (s pre : String) : Bool :=
  pre.toList.isPrefixOf s.toList

/-- Split a character list on a separator character, keeping empty chunks
(Python str.split with an explicit separator). -/
def splitOnCharList (sep : Char) : List Char → List (List Char)
  | [] => [[]]
  | c :: rest =>
      match splitOnCharList sep rest with
      | [] => [[]]
      | h :: t => if c = sep then [] :: h :: t else (c :: h) :: t

/-- Python str.split(sep) for a one-character separator (the sources only ever
split on "\n", ":" and "/"). -/
def pySplitChar (sep : Char) (s : String) : List String :=
  (splitOnCharList sep s.toList).map String.mk

/-- Split a character list at every character satisfying p, keeping empties. -/
def splitPredList (p : Char → Bool) : List Char → List (List Char)
  | [] => [[]]
  | c :: rest =>
      match splitPredList p rest with
      | [] => [[]]
      | h :: t => if p c then [] :: h :: t else (c :: h) :: t

/-- Python str.strip(): drop leading and trailing whitespace. -/
def pyTrim (s : String) : String :=
  String.mk
    (((s.toList.dropWhile Char.isWhitespace).reverse.dropWhile
        Char.isWhitespace).reverse)

/-- Python str.lower(). -/
def pyToLower (s : String) : String :=
  String.mk (s.toList.map Char.toLower)

/-- Replace every occurrence of pat (structural recursion on fuel, enough fuel
to scan the whole list). -/
def listReplaceF (pat repl : List Char) : Nat → List Char → List Char
  | _, [] => []
  | 0, l => l
  | fuel + 1, c :: rest =>
      if pat.isPrefixOf (c :: rest) ∧ pat ≠ [] then
        repl ++ listReplaceF pat repl fuel (rest.drop (pat.length - 1))
      else c :: listReplaceF pat repl fuel rest

/-- Python str.replace(pat, repl) for a nonempty pattern. -/
def pyReplace (s pat repl : String) : String :=
  String.mk (listReplaceF pat.toList repl.toList s.toList.length s.toList)


/-- Outcome of one subprocess.run call (or of the surrounding temp-file setup):
it either completes with captured stdout/stderr, raises TimeoutExpired, or
raises some other exception carrying a message. -/
inductive SubprocOutcome where
  | completed (stdout : String) (stderr : String)
  | timeout
  | failed (msg : String)
deriving DecidableEq, Repr

/-- The two exception classes distinguished by the wrappers' except clauses. -/
inductive PyExn where
  | timeoutExpired
  | exn (msg : String)
deriving DecidableEq, Repr

/-- Lift a subprocess outcome into the exception monad of the wrapper body. -/
def procRun : SubprocOutcome → Except PyExn (String × String)
  | .completed o e => .ok (o, e)
  | .timeout => .error .timeoutExpired
  | .failed m => .error (.exn m)

/-- Opaque representation of one JSON object produced by a tool. -/
abbrev PyObj := String

/-- The dictionary returned by run_pylint (Option none = key absent). -/
structure PylintResult where
  success : Bool
  issues : Option (List PyObj)
  error : Option String
  output : Option String
deriving DecidableEq, Repr

/-- Body of run_pylint from src/utils/static_analysis.py: run the subprocess and
parse its stdout with json.loads (shallowly embedded as jsonList, whose .error
is the ValueError json.loads raises on malformed output). -/
def run_pylint_body (jsonList : String → Except String (List PyObj))
    (out : SubprocOutcome) : Except PyExn PylintResult :=
  match procRun out with
  | .error e => .error e
  | .ok (stdout, stderr) =>
      if stdout ≠ "" then
        match jsonList stdout with
        | .ok issues => .ok ⟨true, some issues, none, some stderr⟩
        | .error m => .error (.exn m)
      else .ok ⟨true, some [], none, some stderr⟩

/-- run_pylint from src/utils/static_analysis.py, with its two except clauses. -/
def run_pylint (jsonList : String → Except String (List PyObj))
    (out : SubprocOutcome) : PylintResult :=
  match run_pylint_body jsonList out with
  | .ok r => r
  | .error .timeoutExpired => ⟨false, some [], some "Timeout", none⟩
  | .error (.exn m) => ⟨false, some [], some m, none⟩

/-- One parsed flake8 finding (the dict built inside run_flake8's loop). -/
structure FlakeIssue where
  path : String
  line : Int
  column : Int
  code : String
  message : String
deriving DecidableEq, Repr

/-- The dictionary returned by run_flake8. -/
structure FlakeResult where
  success : Bool
  issues : Option (List FlakeIssue)
  error : Option String
  output : Option String
deriving DecidableEq, Repr

/-- Python str.split(sep, 3): split on sep at most 3 times, so at most 4 parts;
everything after the third separator stays in the final part. -/
def pySplit3 (sep : Char) (s : String) : List String :=
  let parts := pySplitChar sep s
  if parts.length ≤ 4 then parts
  else parts.take 3 ++ [String.intercalate (String.mk [sep]) (parts.drop 3)]

/-- Python str.split() with no argument: split on whitespace runs, no empties. -/
def pyWhitespaceSplit (s : String) : List String :=
  ((splitPredList Char.isWhitespace s.toList).map String.mk).filter
    (fun p => p ≠ "")

/-- Numeric value of a digit string. -/
def digitsVal (l : List Char) : Nat :=
  l.foldl (fun n c => 10 * n + (c.toNat - 48)) 0

/-- Python int(s) on decimal inputs: optional surrounding whitespace, optional
sign, then decimal digits; anything else raises ValueError. -/
def pyInt (s : String) : Except String Int :=
  let t := (pyTrim s).toList
  let (sign, digits) :=
    match t with
    | '-' :: rest => ((-1 : Int), rest)
    | '+' :: rest => ((1 : Int), rest)
    | _ => ((1 : Int), t)
  if digits ≠ [] ∧ digits.all Char.isDigit then
    .ok (sign * (digitsVal digits : Int))
  else
    .error ("invalid literal for int() with base 10: " ++ s)

/-- The loop body of run_flake8's stdout parser: a nonempty line is split on ":"
with maxsplit 3; with at least 4 parts it is parsed into a finding (int() may
raise on the line/column fields, and indexing split()[0] of a whitespace-only
code field raises IndexError); otherwise it is silently skipped. -/
def parseFlakeLine (line : String) : Except String (Option FlakeIssue) :=
  if line = "" then .ok none
  else
    let parts := pySplit3 ':' line
    if parts.length ≥ 4 then
      match pyInt (parts.getD 1 "") with
      | .error e => .error e
      | .ok ln =>
        match pyInt (parts.getD 2 "") with
        | .error e => .error e
        | .ok col =>
          let tail := parts.getD 3 ""
          match
            (if tail ≠ "" then
              match pyWhitespaceSplit tail with
              | [] => Except.error "list index out of range"
              | c :: _ => Except.ok c
            else Except.ok "") with
          | .error e => .error e
          | .ok code => .ok (some ⟨parts.getD 0 "", ln, col, code, pyTrim tail⟩)
    else .ok none

/-- The per-line accumulation of run_flake8 over the split stdout lines. -/
def parseFlakeLines : List FlakeIssue → List String → Except String (List FlakeIssue)
  | acc, [] => .ok acc
  | acc, l :: ls =>
      match parseFlakeLine l with
      | .error e => .error e
      | .ok none => parseFlakeLines acc ls
      | .ok (some i) => parseFlakeLines (acc ++ [i]) ls

/-- The stdout-parsing loop of run_flake8: an empty stdout yields no issues;
otherwise stdout is stripped, split on newlines, and each line parsed,
accumulating the findings until a line raises. -/
def parseFlakeStdout (stdout : String) : Except String (List FlakeIssue) :=
  if stdout = "" then .ok []
  else parseFlakeLines [] (pySplitChar '\n' (pyTrim stdout))

/-- Body of run_flake8 from src/utils/static_analysis.py. -/
def run_flake8_body (out : SubprocOutcome) : Except PyExn FlakeResult :=
  match procRun out with
  | .error e => .error e
  | .ok (stdout, stderr) =>
      match parseFlakeStdout stdout with
      | .ok issues => .ok ⟨true, some issues, none, some stderr⟩
      | .error m => .error (.exn m)

/-- run_flake8 from src/utils/static_analysis.py, with its two except clauses. -/
def run_flake8 (out : SubprocOutcome) : FlakeResult :=
  match run_flake8_body out with
  | .ok r => r
  | .error .timeoutExpired => ⟨false, some [], some "Timeout", none⟩
  | .error (.exn m) => ⟨false, some [], some m, none⟩

/-- The dictionary returned by run_bandit. -/
structure BanditResult where
  success : Bool
  issues : Option (List PyObj)
  error : Option String
  metrics : Option PyObj
deriving DecidableEq, Repr

/-- Body of run_bandit from src/utils/static_analysis.py: json.loads the stdout
(shallowly embedded as banditJson yielding the results list and the metrics
object extracted with .get). -/
def run_bandit_body (banditJson : String → Except String (List PyObj × PyObj))
    (out : SubprocOutcome) : Except PyExn BanditResult :=
  match procRun out with
  | .error e => .error e
  | .ok (stdout, _stderr) =>
      if stdout ≠ "" then
        match banditJson stdout with
        | .ok (results, metrics) => .ok ⟨true, some results, none, some metrics⟩
        | .error m => .error (.exn m)
      else .ok ⟨true, some [], none, some ""⟩

/-- run_bandit from src/utils/static_analysis.py, with its two except clauses. -/
def run_bandit (banditJson : String → Except String (List PyObj × PyObj))
    (out : SubprocOutcome) : BanditResult :=
  match run_bandit_body banditJson out with
  | .ok r => r
  | .error .timeoutExpired => ⟨false, some [], some "Timeout", none⟩
  | .error (.exn m) => ⟨false, some [], some m, none⟩

/-- One function entry of a radon cc report. -/
structure RadonFunc where
  name : String
  complexity : Int
  lineno : Option Int
deriving DecidableEq, Repr

/-- A value of the radon complexity dict: a list of function entries, or some
other JSON value (radon reports errors as objects, which the agents skip with
an isinstance list check). -/
inductive RadonValue where
  | funcs (l : List RadonFunc)
  | nonList (raw : PyObj)
deriving DecidableEq, Repr

/-- The radon cc JSON report: temp-file path mapped to its entries. -/
abbrev RadonComplexity := List (String × RadonValue)

/-- The dictionary returned by run_radon.  The issues field records that the
failure shape of run_radon carries no issues key at all. -/
structure RadonResult where
  success : Bool
  complexity : Option RadonComplexity
  maintainability : Option PyObj
  error : Option String
  issues : Option (List PyObj)
deriving DecidableEq, Repr

/-- Body of run_radon from src/utils/static_analysis.py: two subprocess runs
(cc then mi), each stdout parsed with json.loads when nonempty, defaulting to
empty dicts. -/
def run_radon_body (ccJson : String → Except String RadonComplexity)
    (miJson : String → Except String PyObj)
    (cc mi : SubprocOutcome) : Except PyExn RadonResult :=
  match procRun cc with
  | .error e => .error e
  | .ok (ccOut, _) =>
    match procRun mi with
    | .error e => .error e
    | .ok (miOut, _) =>
      match (if ccOut ≠ "" then ccJson ccOut else .ok []) with
      | .error m => .error (.exn m)
      | .ok complexityData =>
        match (if miOut ≠ "" then miJson miOut else .ok "") with
        | .error m => .error (.exn m)
        | .ok miData => .ok ⟨true, some complexityData, some miData, none, none⟩

/-- run_radon from src/utils/static_analysis.py, with its two except clauses:
the failure dictionary has only success and error keys (no issues key). -/
def run_radon (ccJson : String → Except String RadonComplexity)
    (miJson : String → Except String PyObj)
    (cc mi : SubprocOutcome) : RadonResult :=
  match run_radon_body ccJson miJson cc mi with
  | .ok r => r
  | .error .timeoutExpired => ⟨false, none, none, some "Timeout", none⟩
  | .error (.exn m) => ⟨false, none, none, some m, none⟩

/-- The loop body of QualityAgent.analyze's radon section
(src/agents/quality_agent.py): a function entry with complexity strictly above
10 yields a MEDIUM high_complexity issue. -/
def qualityFuncIssue (f : RadonFunc) : Option Issue :=
  if f.complexity > 10 then
    some
      { severity := .medium
        issue_type := "high_complexity"
        message := "Function '" ++ f.name ++ "' has high complexity (" ++
          toString f.complexity ++ ")"
        line_number := f.lineno
        suggestion := some
          "Consider refactoring this function into smaller, more manageable pieces."
        metadata := some
          [("tool", .str "radon"), ("complexity", .int f.complexity),
           ("function", .str f.name)] }
  else none

/-- The radon section of QualityAgent.analyze: on a successful radon run, walk
the complexity dict, skipping values that are not lists, and apply the
threshold check to every function entry. -/
def qualityRadonIssues (radon_results : RadonResult) : List Issue :=
  if radon_results.success then
    (radon_results.complexity.getD []).foldl
      (fun acc kv =>
        match kv.2 with
        | .funcs funcs => acc ++ funcs.filterMap qualityFuncIssue
        | .nonList _ => acc)
      []
  else []

/-- The loop body of PerformanceAgent.analyze's radon section
(src/agents/performance_agent.py): a function entry with complexity strictly
above 15 yields a HIGH high_complexity issue. -/
def performanceFuncIssue (f : RadonFunc) : Option Issue :=
  if f.complexity > 15 then
    some
      { severity := .high
        issue_type := "high_complexity"
        message := "Function '" ++ f.name ++ "' has very high complexity (" ++
          toString f.complexity ++ ") which may impact performance"
        line_number := f.lineno
        suggestion := some
          "Refactor into smaller functions. Consider using caching or optimization techniques."
        metadata := some
          [("tool", .str "radon"), ("complexity", .int f.complexity),
           ("function", .str f.name)] }
  else none

/-- The radon section of PerformanceAgent.analyze. -/
def performanceRadonIssues (radon_results : RadonResult) : List Issue :=
  if radon_results.success then
    (radon_results.complexity.getD []).foldl
      (fun acc kv =>
        match kv.2 with
        | .funcs funcs => acc ++ funcs.filterMap performanceFuncIssue
        | .nonList _ => acc)
      []
  else []

/-- Does pat occur as a contiguous run inside l (re.search of a literal)? -/
def listHasInfix (pat : List Char) : List Char → Bool
  | [] => pat.isEmpty
  | c :: rest => pat.isPrefixOf (c :: rest) || listHasInfix pat rest

/-- Python substring test: pat in s. -/
def strContains (s pat : String) : Bool :=
  listHasInfix pat.toList s.toList

/-- re.search of the pattern random\.(randint|choice|random) on one line: the
alternation of three literals is a substring test for any of them. -/
def matchesRandomPattern (line : String) : Bool :=
  strContains line "random.randint" || strContains line "random.choice" ||
    strContains line "random.random"

/-- The security-sensitive keywords checked on the matching line. -/
def securityKeywords : List String :=
  ["password", "token", "key", "secret", "auth"]

/-- enumerate(lines, start) driving a per-line issue producer. -/
def scanLines (f : Int → String → Option Issue) : Int → List String → List Issue
  | _, [] => []
  | n, l :: ls =>
      match f n l with
      | some i => i :: scanLines f (n + 1) ls
      | none => scanLines f (n + 1) ls

/-- The loop body of SecurityAgent._check_insecure_random
(src/agents/security_agent.py): emit a HIGH insecure_random issue when the line
matches the random pattern, the whole file does not mention secrets, and the
lowercased line contains a security keyword. -/
def insecureRandomLineIssue (uses_secrets : Bool) (line_num : Int) (line : String) :
    Option Issue :=
  if matchesRandomPattern line && !uses_secrets then
    if securityKeywords.any (fun k => strContains (pyToLower line) k) then
      some
        { severity := .high
          issue_type := "insecure_random"
          message := "Using random module for security-sensitive operations"
          line_number := some line_num
          suggestion := some
            "Use secrets module for cryptographically secure random number generation."
          metadata := some [("line", .str (pyTrim line))] }
    else none
  else none

/-- SecurityAgent._check_insecure_random from src/agents/security_agent.py. -/
def check_insecure_random (code : String) : List Issue :=
  let lines := pySplitChar '\n' code
  let uses_secrets := strContains (pyToLower code) "secrets"
  scanLines (insecureRandomLineIssue uses_secrets) 1 lines

/-- A FunctionDef node as seen by the documentation agent: name, source span,
positional-argument count, docstring (as ast.get_docstring returns it), and the
branch counts its complexity walk tallies. -/
structure PyFunctionDef where
  name : String
  lineno : Nat
  end_lineno : Nat
  argCount : Nat
  docstring : Option String
  branchNodes : Nat
  boolOpExtra : Nat
deriving DecidableEq, Repr

/-- A ClassDef node as seen by the documentation agent. -/
structure PyClassDef where
  name : String
  lineno : Nat
  docstring : Option String
deriving DecidableEq, Repr

/-- The parsed module tree, with FunctionDef and ClassDef nodes in ast.walk
order. -/
structure PyTree where
  functions : List PyFunctionDef
  classes : List PyClassDef
deriving DecidableEq, Repr

/-- DocumentationAgent._check_module_docstring: the first non-empty,
non-comment line must start with a triple quote. -/
def checkModuleDocstring (code : String) : List Issue :=
  let lines := pySplitChar '\n' code
  let firstIdx :=
    match lines.findIdx? (fun l =>
      pyTrim l ≠ "" ∧ ¬ (pyStartsWith (pyTrim l) "#" = true)) with
    | some i => i
    | none => 0
  if h : firstIdx < lines.length then
    let first := pyTrim (lines.get ⟨firstIdx, h⟩)
    if ¬ (pyStartsWith first "\"\"\"" = true ∨ pyStartsWith first "'''" = true) then
      [{ severity := .low
         issue_type := "missing_module_docstring"
         message := "Module is missing a docstring"
         line_number := some 1
         suggestion := some
           "Add a module-level docstring describing the module's purpose." }]
    else []
  else []

/-- Per-function body of DocumentationAgent._check_function_docstrings: private
functions are skipped; a missing docstring is one MEDIUM issue; otherwise a very
short docstring and undocumented parameters each add a LOW issue. -/
def functionDocstringIssues (f : PyFunctionDef) : List Issue :=
  if pyStartsWith f.name "_" then []
  else
    match f.docstring with
    | none =>
        [{ severity := .medium
           issue_type := "missing_function_docstring"
           message := "Function '" ++ f.name ++ "' is missing a docstring"
           line_number := some (f.lineno : Int)
           suggestion := some ("Add a docstring to function '" ++ f.name ++
             "' describing its purpose, parameters, and return value.")
           metadata := some [("function", .str f.name)] }]
    | some ds =>
        (if ds.length < 20 then
          [{ severity := .low
             issue_type := "poor_docstring_quality"
             message := "Function '" ++ f.name ++ "' has a very brief docstring"
             line_number := some (f.lineno : Int)
             suggestion := some
               "Expand the docstring to include parameter descriptions and return value information."
             metadata := some [("function", .str f.name)] }]
        else []) ++
        (if f.argCount > 0 ∧
            ¬ (pyWhitespaceSplit ds ≠ [] ∧
               (strContains (pyToLower ds) "param" = true ∨
                strContains (pyToLower ds) "arg" = true)) then
          [{ severity := .low
             issue_type := "missing_parameter_docs"
             message := "Function '" ++ f.name ++ "' docstring doesn't document parameters"
             line_number := some (f.lineno : Int)
             suggestion := some "Document function parameters in the docstring."
             metadata := some [("function", .str f.name)] }]
        else [])

/-- DocumentationAgent._check_function_docstrings over the walked tree. -/
def checkFunctionDocstrings (tree : PyTree) : List Issue :=
  tree.functions.foldl (fun acc f => acc ++ functionDocstringIssues f) []

/-- Per-class body of DocumentationAgent._check_class_docstrings. -/
def classDocstringIssues (c : PyClassDef) : List Issue :=
  if pyStartsWith c.name "_" then []
  else
    match c.docstring with
    | none =>
        [{ severity := .medium
           issue_type := "missing_class_docstring"
           message := "Class '" ++ c.name ++ "' is missing a docstring"
           line_number := some (c.lineno : Int)
           suggestion := some ("Add a docstring to class '" ++ c.name ++
             "' describing its purpose and usage.")
           metadata := some [("class", .str c.name)] }]
    | some _ => []

/-- DocumentationAgent._check_class_docstrings over the walked tree. -/
def checkClassDocstrings (tree : PyTree) : List Issue :=
  tree.classes.foldl (fun acc c => acc ++ classDocstringIssues c) []

/-- DocumentationAgent._calculate_complexity: one plus the number of
If/While/For/ExceptHandler descendants plus the BoolOp surplus. -/
def calculateComplexity (f : PyFunctionDef) : Nat :=
  1 + f.branchNodes + f.boolOpExtra

/-- Per-function body of DocumentationAgent._check_complex_code_comments: a
function of complexity above 5 whose source lines hold no comment line gets a
LOW issue. -/
def complexCodeCommentIssues (codeLines : List String) (f : PyFunctionDef) : List Issue :=
  if calculateComplexity f > 5 then
    let functionLines := (codeLines.drop (f.lineno - 1)).take (f.end_lineno - (f.lineno - 1))
    let hasComments := functionLines.any (fun l => pyStartsWith (pyTrim l) "#")
    if ¬ hasComments then
      [{ severity := .low
         issue_type := "complex_code_needs_comments"
         message := "Complex function '" ++ f.name ++ "' lacks inline comments"
         line_number := some (f.lineno : Int)
         suggestion := some "Add inline comments to explain complex logic."
         metadata := some
           [("function", .str f.name),
            ("complexity", .int (calculateComplexity f : Int))] }]
    else []
  else []

/-- DocumentationAgent._check_complex_code_comments over the walked tree. -/
def checkComplexCodeComments (tree : PyTree) (code : String) : List Issue :=
  tree.functions.foldl
    (fun acc f => acc ++ complexCodeCommentIssues (pySplitChar '\n' code) f) []

/-- DocumentationAgent.analyze from src/agents/documentation_agent.py.
ast.parse is shallowly embedded as its outcome: a tree, or the SyntaxError it
raised.  On a SyntaxError, the four tree-based checks are skipped and the
single syntax_error issue is returned. -/
def documentation_analyze (parseOutcome : Except Unit PyTree) (code : String) : List Issue :=
  match parseOutcome with
  | .ok tree =>
      checkModuleDocstring code ++ checkFunctionDocstrings tree ++
        checkClassDocstrings tree ++ checkComplexCodeComments tree code
  | .error _ =>
      [{ severity := .high
         issue_type := "syntax_error"
         message := "Code has syntax errors, cannot analyze documentation"
         line_number := none
         suggestion := some "Fix syntax errors first" }]

/-- Python dict assignment d[k] = v on a string-keyed dict: an existing key
keeps its position, a new key is appended. -/
def metaSet (d : MetaDict) (k : String) (v : MetaVal) : MetaDict :=
  match d with
  | [] => [(k, v)]
  | (k0, v0) :: rest =>
      if k0 = k then (k0, v) :: rest else (k0, v0) :: metaSet rest k v

/-- The per-issue rewriting shared by the scan-aggregation loops and the
single-file save loop of create_review (src/api/routes/reviews.py): the message
gains a leading "[<file path>] " unless already so prefixed, and the metadata
copy is stamped with the file path. -/
def prefixIssue (path : String) (issue : Issue) : Issue :=
  let msg :=
    if pyStartsWith issue.message ("[" ++ path ++ "]") then issue.message
    else "[" ++ path ++ "] " ++ issue.message
  let md := metaSet (issue.metadata.getD []) "file_path" (.str path)
  { issue with message := msg, metadata := some md }

/-- One value of agent_results_dict in the scan paths of create_review. -/
structure AggEntry where
  issues : List Issue
  total_time : ℚ
  success : Bool
deriving DecidableEq, Repr

/-- The aggregation dict, keyed by agent type, insertion-ordered. -/
abbrev AggDict := List (AgentType × AggEntry)

/-- Python dict lookup on the aggregation dict. -/
def aggFind (d : AggDict) (t : AgentType) : Option AggEntry :=
  match d with
  | [] => none
  | (k, v) :: rest => if k = t then some v else aggFind rest t

/-- Python dict assignment on the aggregation dict. -/
def aggSet (d : AggDict) (t : AgentType) (v : AggEntry) : AggDict :=
  match d with
  | [] => [(t, v)]
  | (k, w) :: rest =>
      if k = t then (k, v) :: rest else (k, w) :: aggSet rest t v

/-- The body of the innermost loop (for issue in result.issues) of the scan
paths of create_review: insert a default entry for the agent type if absent,
append the path-stamped issue, add the result's execution_time (once per
issue), and clear the success flag if the result failed. -/
def aggIssueStep (path : String) (r : AgentResult) (d : AggDict) (issue : Issue) : AggDict :=
  let issue_with_path := prefixIssue path issue
  let entry := (aggFind d r.agent_type).getD ⟨[], 0, true⟩
  let entry' : AggEntry :=
    { issues := entry.issues ++ [issue_with_path]
      total_time := entry.total_time + r.execution_time
      success := if r.success then entry.success else false }
  aggSet d r.agent_type entry'

/-- The middle loop (for result in file_results) of the scan paths. -/
def aggResultStep (path : String) (d : AggDict) (r : AgentResult) : AggDict :=
  r.issues.foldl (aggIssueStep path r) d

/-- The outer loop (for file_info in all_files) of the scan paths; each file is
its path together with the per-file orchestrator results. -/
def aggFileStep (d : AggDict) (file : String × List AgentResult) : AggDict :=
  file.2.foldl (aggResultStep file.1) d

/-- agent_results_dict after the whole scan loop of create_review. -/
def scanAggregate (files : List (String × List AgentResult)) : AggDict :=
  files.foldl aggFileStep []

/-- The conversion of agent_results_dict entries into the response AgentResult
list at the end of the scan paths. -/
def dictToResults (d : AggDict) : List AgentResult :=
  d.map (fun kv =>
    { agent_type := kv.1
      success := kv.2.success
      execution_time := kv.2.total_time
      issues := kv.2.issues
      error_message := none
      metadata := none })

/-- The aggregated AgentResult list returned by a multi-file scan. -/
def aggregateScanResults (files : List (String × List AgentResult)) : List AgentResult :=
  dictToResults (scanAggregate files)

/-- Repository row from src/database/models.py. -/
structure Repository where
  id : Nat
  name : String
  url : String
  platform : String
  owner : String
deriving DecidableEq, Repr

/-- Review row from src/database/models.py (timestamps as abstract ticks). -/
structure Review where
  id : Nat
  repository_id : Nat
  commit_sha : Option String
  pull_request_id : Option Int
  file_path : String
  status : String
  created_at : Nat
  completed_at : Option Nat
deriving DecidableEq, Repr

/-- ReviewResult row from src/database/models.py. -/
structure ReviewResult where
  review_id : Nat
  agent_type : String
  severity : String
  issue_type : String
  message : String
  line_number : Option Int
  suggestion : Option String
  meta_data : MetaDict
deriving DecidableEq, Repr

/-- The database state touched by the review routes. -/
structure DbState where
  repositories : List Repository
  reviews : List Review
  reviewResults : List ReviewResult
deriving DecidableEq, Repr

/-- ReviewRequest model from src/core/schemas.py. -/
structure ReviewRequest where
  repository_url : String
  file_path : Option String := none
  commit_sha : Option String := none
  pull_request_id : Option Int := none
  scan_entire_repo : Bool := false
  agent_types : Option (List AgentType) := none
deriving DecidableEq, Repr

/-- ReviewResponse model from src/core/schemas.py. -/
structure ReviewResponse where
  review_id : Nat
  repository_url : String
  file_path : String
  status : String
  results : List AgentResult
  total_issues : Nat
  created_at : Nat
  completed_at : Option Nat
deriving DecidableEq, Repr

/-- The platform/owner/name extraction of create_review for a repository URL
not yet in the database. -/
def extractRepoInfo (url : String) : String × String × String :=
  if strContains url "github.com" then
    let parts := pySplitChar '/' (pyReplace url "https://github.com/" "")
    ("github", parts.headD "unknown",
      if parts.length > 1 then pyReplace (parts.getD 1 "") ".git" "" else "unknown")
  else if strContains url "gitlab.com" then
    let parts := pySplitChar '/' (pyReplace url "https://gitlab.com/" "")
    ("gitlab", parts.headD "unknown",
      if parts.length > 1 then pyReplace (parts.getD 1 "") ".git" "" else "unknown")
  else
    ("unknown", "unknown", "unknown")

/-- The get-or-create Repository step at the top of create_review; a created
row gets the next autoincrement id. -/
def getOrCreateRepo (db : DbState) (url : String) : Repository × DbState :=
  match db.repositories.find? (fun r => r.url = url) with
  | some r => (r, db)
  | none =>
      let (platform, owner, name) := extractRepoInfo url
      let repo : Repository :=
        { id := db.repositories.length + 1, name := name, url := url,
          platform := platform, owner := owner }
      (repo, { db with repositories := db.repositories ++ [repo] })

/-- One persisted ReviewResult row of the single-file save loop of
create_review: the stored message and metadata are the path-stamped ones. -/
def mkReviewResultRow (reviewId : Nat) (fp : String) (r : AgentResult) (i : Issue) :
    ReviewResult :=
  let ip := prefixIssue fp i
  { review_id := reviewId
    agent_type := r.agent_type.value
    severity := i.severity.value
    issue_type := i.issue_type
    message := ip.message
    line_number := i.line_number
    suggestion := i.suggestion
    meta_data := ip.metadata.getD [] }

/-- The rows written by the single-file save loop, in loop order. -/
def savedRows (reviewId : Nat) (fp : String) (results : List AgentResult) :
    List ReviewResult :=
  results.foldl
    (fun acc r => acc ++ r.issues.map (fun i => mkReviewResultRow reviewId fp r i)) []

/-- The outcome of one create_review call: a response, an HTTPException with
its status code and detail, or entry into the hosted (GitHub/GitLab
integration) branches that are outside this model. -/
inductive CreateOutcome where
  | response (resp : ReviewResponse) (db : DbState)
  | httpError (status : Nat) (detail : String) (db : DbState)
  | hostedMode (db : DbState)
deriving DecidableEq, Repr

/-- create_review from src/api/routes/reviews.py, for requests that do not
enter the hosted GitHub/GitLab branches (those return the hostedMode sentinel
after the shared get-or-create-repository step).  fs is the local filesystem
(os.path.exists plus open().read()), reviewOf the orchestrator behaviour, now
the current clock tick.  Local mode: file_path is truthy and repository_url
does not start with "http"; a missing file raises HTTPException(400), which
propagates before any Review row is written. -/
def create_review (reviewOf : AgentType → Except String AgentResult)
    (fs : String → Option String) (now : Nat)
    (req : ReviewRequest) (db : DbState) : CreateOutcome :=
  let (repo, db1) := getOrCreateRepo db req.repository_url
  let filePathTruthy : Bool := match req.file_path with
    | some p => p != ""
    | none => false
  if filePathTruthy && !(pyStartsWith req.repository_url "http") then
    let p := req.file_path.getD ""
    match fs p with
    | none => .httpError 400 ("Local file not found: " ++ p) db1
    | some _code =>
        let file_path := p
        let review : Review :=
          { id := db1.reviews.length + 1
            repository_id := repo.id
            commit_sha := req.commit_sha
            pull_request_id := req.pull_request_id
            file_path := file_path
            status := "pending"
            created_at := now
            completed_at := none }
        let db2 := { db1 with reviews := db1.reviews ++ [review] }
        let agent_types := match req.agent_types with
          | some l => if l = [] then none else some l
          | none => none
        let results := review_code reviewOf agent_types
        let rows := savedRows review.id file_path results
        let mutatedResults := results.map
          (fun r => { r with issues := r.issues.map (prefixIssue file_path) })
        let review' := { review with status := "completed", completed_at := some now }
        let db3 :=
          { db2 with
            reviews := db2.reviews.map (fun rv => if rv.id = review.id then review' else rv)
            reviewResults := db2.reviewResults ++ rows }
        .response
          { review_id := review.id
            repository_url := req.repository_url
            file_path := file_path
            status := "completed"
            results := mutatedResults
            total_issues := rows.length
            created_at := review.created_at
            completed_at := review'.completed_at }
          db3
  else if req.repository_url != "" && pyStartsWith req.repository_url "http" then
    .hostedMode db1
  else
    .httpError 400
      "Must provide either a local file_path or a repository_url with file_path/commit_sha/pull_request_id"
      db1

/-- Severity(value): recover the enum member from its stored string. -/
def severityFromString (s : String) : Option Severity :=
  if s = "critical" then some .critical
  else if s = "high" then some .high
  else if s = "medium" then some .medium
  else if s = "low" then some .low
  else if s = "info" then some .info
  else none

/-- AgentType(value): recover the enum member from its stored string. -/
def agentTypeFromString (s : String) : Option AgentType :=
  if s = "quality" then some .quality
  else if s = "security" then some .security
  else if s = "performance" then some .performance
  else if s = "documentation" then some .documentation
  else none

/-- Append an issue to its agent type's bucket (defaultdict(list) semantics:
a new key is appended at the end). -/
def groupAppend (d : List (String × List Issue)) (k : String) (i : Issue) :
    List (String × List Issue) :=
  match d with
  | [] => [(k, [i])]
  | (k0, l) :: rest =>
      if k0 = k then (k0, l ++ [i]) :: rest else (k0, l) :: groupAppend rest k i

/-- The re-hydration loop of get_review: each persisted row is turned back into
an Issue and grouped by agent type; an invalid stored severity string raises
(surfaced by the framework as a 500). -/
def groupRowsAux : List (String × List Issue) → List ReviewResult →
    Except (Nat × String) (List (String × List Issue))
  | d, [] => .ok d
  | d, row :: rest =>
      match severityFromString row.severity with
      | some sev =>
          groupRowsAux
            (groupAppend d row.agent_type
              { severity := sev
                issue_type := row.issue_type
                message := row.message
                line_number := row.line_number
                suggestion := row.suggestion
                metadata := some row.meta_data })
            rest
      | none => .error (500, "Internal server error: invalid severity")

/-- The re-hydration loop of get_review, started on the empty dict. -/
def groupRows (rows : List ReviewResult) :
    Except (Nat × String) (List (String × List Issue)) :=
  groupRowsAux [] rows

/-- The response-building loop of get_review: each agent-type bucket becomes an
AgentResult with execution_time 0.0 and success true. -/
def buildGroupedResults : List (String × List Issue) →
    Except (Nat × String) (List AgentResult)
  | [] => .ok []
  | kv :: rest =>
      match agentTypeFromString kv.1 with
      | some t =>
          match buildGroupedResults rest with
          | .error e => .error e
          | .ok rs =>
              .ok ({ agent_type := t, success := true, execution_time := 0,
                     issues := kv.2, error_message := none,
                     metadata := none } :: rs)
      | none => .error (500, "Internal server error: invalid agent type")

/-- get_review from src/api/routes/reviews.py: an unknown id raises
HTTPException(404, "Review not found"); otherwise the persisted rows are
re-hydrated into per-agent AgentResult values (execution_time 0.0, success
true). -/
def get_review (review_id : Nat) (db : DbState) :
    Except (Nat × String) ReviewResponse :=
  match db.reviews.find? (fun r => r.id = review_id) with
  | none => .error (404, "Review not found")
  | some review =>
      let rows := db.reviewResults.filter (fun r => r.review_id = review_id)
      match groupRows rows with
      | .error e => .error e
      | .ok grouped =>
          match buildGroupedResults grouped with
          | .error e => .error e
          | .ok results =>
              let repo := db.repositories.find?
                (fun rp => rp.id = review.repository_id)
              .ok
                { review_id := review.id
                  repository_url := (repo.map (fun rp => rp.url)).getD ""
                  file_path := review.file_path
                  status := review.status
                  results := results
                  total_issues := rows.length
                  created_at := review.created_at
                  completed_at := review.completed_at }

/-- The success payload of clear_all_reviews. -/
structure ClearPayload where
  success : Bool
  message : String
  deleted_reviews : Nat
  deleted_results : Nat
deriving DecidableEq, Repr

/-- db.query(ReviewResult).delete(): removes every row, returning the count. -/
def deleteAllReviewResults (db : DbState) : DbState × Nat :=
  ({ db with reviewResults := [] }, db.reviewResults.length)

/-- db.query(Review).delete(): removes every row, returning the count. -/
def deleteAllReviews (db : DbState) : DbState × Nat :=
  ({ db with reviews := [] }, db.reviews.length)

/-- clear_all_reviews from src/api/routes/reviews.py: delete all ReviewResult
rows first, then all Review rows, leave repositories untouched, and report the
two counts. -/
def clear_all_reviews (db : DbState) : DbState × ClearPayload :=
  let (db1, deleted_results) := deleteAllReviewResults db
  let (db2, deleted_reviews) := deleteAllReviews db1
  (db2,
    { success := true
      message := "Cleared " ++ toString deleted_reviews ++ " reviews and " ++
        toString deleted_results ++ " review results"
      deleted_reviews := deleted_reviews
      deleted_results := deleted_results })

/-- Folding append over a list is the initial segment followed by the joined
images. -/
theorem foldl_append_join {α β : Type} (g : α → List β) :
    ∀ (l : List α) (init : List β),
      l.foldl (fun acc x => acc ++ g x) init = init ++ (l.map g).flatten
  | [], init => by simp
  | x :: l, init => by
    rw [List.foldl_cons, foldl_append_join g l (init ++ g x)]
    simp [List.append_assoc]

/-- C3: the base review operation never propagates an exception raised by
analyze: on a raise it yields success false, no issues and the stringified
exception; on success it yields success true with the returned issues; in both
cases execution_time is the elapsed difference of the two clock samples (hence
non-negative for a monotone clock) and metadata is the static descriptor. -/
theorem base_agent_review_contract (t : AgentType)
    (outcome : Except String (List Issue)) (t0 t1 : ℚ) (h : t0 ≤ t1) :
    (∀ e, outcome = .error e →
        (baseAgentReview t outcome t0 t1).success = false ∧
        (baseAgentReview t outcome t0 t1).issues = [] ∧
        (baseAgentReview t outcome t0 t1).error_message = some e) ∧
    (∀ issues, outcome = .ok issues →
        (baseAgentReview t outcome t0 t1).success = true ∧
        (baseAgentReview t outcome t0 t1).issues = issues ∧
        (baseAgentReview t outcome t0 t1).error_message = none) ∧
    (baseAgentReview t outcome t0 t1).execution_time = t1 - t0 ∧
    0 ≤ (baseAgentReview t outcome t0 t1).execution_time ∧
    (baseAgentReview t outcome t0 t1).metadata =
      some [("agent_type", t.value), ("version", "1.0.0")] := by
  have hnn : 0 ≤ t1 - t0 := sub_nonneg.mpr h
  refine ⟨?_, ?_, ?_, ?_, ?_⟩
  · intro e he
    subst he
    exact ⟨rfl, rfl, rfl⟩
  · intro issues hi
    subst hi
    exact ⟨rfl, rfl, rfl⟩
  · cases outcome <;> rfl
  · cases outcome <;> exact hnn
  · cases outcome <;> rfl

/-- Witness for C3 at a concrete failing analyze outcome. -/
theorem base_agent_review_contract_witness :
    (baseAgentReview .quality (.error "boom") 0 1).success = false ∧
    (baseAgentReview .quality (.error "boom") 0 1).issues = [] ∧
    (baseAgentReview .quality (.error "boom") 0 1).error_message = some "boom" :=
  (base_agent_review_contract .quality (.error "boom") 0 1 (by norm_num)).1 "boom" rfl

/-- C8: when parsing raises a SyntaxError, the Documentation Agent returns
exactly the single HIGH syntax_error issue with suggestion
"Fix syntax errors first", and none of the tree-based checks contribute. -/
theorem documentation_syntax_error_contract (code : String) (err : Unit) :
    documentation_analyze (.error err) code =
      [{ severity := .high
         issue_type := "syntax_error"
         message := "Code has syntax errors, cannot analyze documentation"
         line_number := none
         suggestion := some "Fix syntax errors first"
         metadata := none }] ∧
    (documentation_analyze (.error err) code).length = 1 := by
  constructor <;> rfl

/-- C9: clear-all-reviews empties the ReviewResult table first, then the Review
table, leaves repositories untouched, and reports the prior row counts (0 and 0
on an empty database as a special case of the equations). -/
theorem clear_all_reviews_contract (db : DbState) :
    (deleteAllReviewResults db).1.reviews = db.reviews ∧
    (clear_all_reviews db).1.reviewResults = [] ∧
    (clear_all_reviews db).1.reviews = [] ∧
    (clear_all_reviews db).1.repositories = db.repositories ∧
    (clear_all_reviews db).2.success = true ∧
    (clear_all_reviews db).2.deleted_reviews = db.reviews.length ∧
    (clear_all_reviews db).2.deleted_results = db.reviewResults.length := by
  simp [clear_all_reviews, deleteAllReviewResults, deleteAllReviews]

/-- C4: the four tool wrappers convert every timeout into the success-false
dictionary whose error is "Timeout" (with an empty issues list for pylint,
flake8 and bandit, and no issues key for radon), and every other subprocess or
parse exception into the same shape carrying the exception message. -/
theorem tool_wrappers_failure_contract :
    (∀ jp, run_pylint jp .timeout = ⟨false, some [], some "Timeout", none⟩) ∧
    (run_flake8 .timeout = ⟨false, some [], some "Timeout", none⟩) ∧
    (∀ bj, run_bandit bj .timeout = ⟨false, some [], some "Timeout", none⟩) ∧
    (∀ cj mj mi, run_radon cj mj .timeout mi = ⟨false, none, none, some "Timeout", none⟩) ∧
    (∀ cj mj o e, run_radon cj mj (.completed o e) .timeout =
       ⟨false, none, none, some "Timeout", none⟩) ∧
    (∀ jp m, run_pylint jp (.failed m) = ⟨false, some [], some m, none⟩) ∧
    (∀ m, run_flake8 (.failed m) = ⟨false, some [], some m, none⟩) ∧
    (∀ bj m, run_bandit bj (.failed m) = ⟨false, some [], some m, none⟩) ∧
    (∀ cj mj m mi, run_radon cj mj (.failed m) mi = ⟨false, none, none, some m, none⟩) ∧
    (∀ jp stdout stderr m, stdout ≠ "" → jp stdout = .error m →
       run_pylint jp (.completed stdout stderr) = ⟨false, some [], some m, none⟩) ∧
    (∀ bj stdout stderr m, stdout ≠ "" → bj stdout = .error m →
       run_bandit bj (.completed stdout stderr) = ⟨false, some [], some m, none⟩) ∧
    (∀ stdout stderr m, parseFlakeStdout stdout = .error m →
       run_flake8 (.completed stdout stderr) = ⟨false, some [], some m, none⟩) ∧
    (∀ cj mj o e o2 e2 m, o ≠ "" → cj o = .error m →
       run_radon cj mj (.completed o e) (.completed o2 e2) =
         ⟨false, none, none, some m, none⟩) := by
  refine ⟨fun jp => rfl, rfl, fun bj => rfl, fun cj mj mi => rfl, fun cj mj o e => rfl,
    fun jp m => rfl, fun m => rfl, fun bj m => rfl, fun cj mj m mi => rfl,
    ?_, ?_, ?_, ?_⟩
  · intro jp stdout stderr m h1 h2
    simp [run_pylint, run_pylint_body, procRun, h1, h2]
  · intro bj stdout stderr m h1 h2
    simp [run_bandit, run_bandit_body, procRun, h1, h2]
  · intro stdout stderr m h
    simp [run_flake8, run_flake8_body, procRun, h]
  · intro cj mj o e o2 e2 m h1 h2
    simp [run_radon, run_radon_body, procRun, h1, h2]

/-- Witness for C4 at a concrete parse failure. -/
theorem tool_wrappers_failure_contract_witness :
    run_pylint (fun _ => .error "Expecting value") (.completed "x" "w") =
      ⟨false, some [], some "Expecting value", none⟩ :=
  tool_wrappers_failure_contract.2.2.2.2.2.2.2.2.2.1
    (fun _ => .error "Expecting value") "x" "w" "Expecting value"
    (by decide) rfl

/-- The radon-section fold of the two agents, restated as a flattened map. -/
theorem radonFold_eq (h : RadonFunc → Option Issue) :
    ∀ (l : RadonComplexity) (init : List Issue),
      l.foldl (fun acc kv =>
        match kv.2 with
        | .funcs funcs => acc ++ funcs.filterMap h
        | .nonList _ => acc) init =
      init ++ (l.map (fun kv =>
        match kv.2 with
        | .funcs fs => fs.filterMap h
        | .nonList _ => [])).flatten
  | [], init => by simp
  | kv :: l, init => by
      cases hkv : kv.2 <;>
        simp [List.foldl_cons, hkv, radonFold_eq h l, List.append_assoc]

/-- C5: in a successful radon complexity report the Quality Agent emits a
high_complexity issue for a function entry exactly when its complexity exceeds
10 (severity MEDIUM), and the Performance Agent exactly when it exceeds 15
(severity HIGH); both agents walk exactly the list-valued report entries. -/
theorem complexity_threshold_contract (rr : RadonResult) (f : RadonFunc) :
    (rr.success = true →
        qualityRadonIssues rr =
          ((rr.complexity.getD []).map (fun kv =>
            match kv.2 with
            | .funcs fs => fs.filterMap qualityFuncIssue
            | .nonList _ => [])).flatten ∧
        performanceRadonIssues rr =
          ((rr.complexity.getD []).map (fun kv =>
            match kv.2 with
            | .funcs fs => fs.filterMap performanceFuncIssue
            | .nonList _ => [])).flatten) ∧
    ((qualityFuncIssue f).isSome ↔ 10 < f.complexity) ∧
    (∀ i, qualityFuncIssue f = some i →
        i.severity = .medium ∧ i.issue_type = "high_complexity") ∧
    ((performanceFuncIssue f).isSome ↔ 15 < f.complexity) ∧
    (∀ i, performanceFuncIssue f = some i →
        i.severity = .high ∧ i.issue_type = "high_complexity") := by
  refine ⟨?_, ?_, ?_, ?_, ?_⟩
  · intro hs
    constructor
    · rw [qualityRadonIssues, if_pos hs,
        radonFold_eq qualityFuncIssue (rr.complexity.getD []) []]
      rfl
    · rw [performanceRadonIssues, if_pos hs,
        radonFold_eq performanceFuncIssue (rr.complexity.getD []) []]
      rfl
  · unfold qualityFuncIssue
    by_cases hc : f.complexity > 10 <;> simp [hc]
  · intro i hi
    unfold qualityFuncIssue at hi
    by_cases hc : f.complexity > 10
    · rw [if_pos hc] at hi
      cases hi
      exact ⟨rfl, rfl⟩
    · rw [if_neg hc] at hi
      cases hi
  · unfold performanceFuncIssue
    by_cases hc : f.complexity > 15 <;> simp [hc]
  · intro i hi
    unfold performanceFuncIssue at hi
    by_cases hc : f.complexity > 15
    · rw [if_pos hc] at hi
      cases hi
      exact ⟨rfl, rfl⟩
    · rw [if_neg hc] at hi
      cases hi

/-- Witness for C5 at the boundary complexities 10, 11, 15 and 16. -/
theorem complexity_threshold_contract_witness :
    (qualityFuncIssue ⟨"f", 11, some 1⟩).isSome = true ∧
    (qualityFuncIssue ⟨"f", 10, some 1⟩).isSome = false ∧
    (performanceFuncIssue ⟨"f", 16, some 1⟩).isSome = true ∧
    (performanceFuncIssue ⟨"f", 15, some 1⟩).isSome = false := by
  refine ⟨?_, ?_, ?_, ?_⟩
  · exact (complexity_threshold_contract ⟨true, some [], some "", none, none⟩
      ⟨"f", 11, some 1⟩).2.1.mpr (by norm_num)
  · have := (complexity_threshold_contract ⟨true, some [], some "", none, none⟩
      ⟨"f", 10, some 1⟩).2.1
    simp only [show ¬ ((10 : Int) < (⟨"f", 10, some 1⟩ : RadonFunc).complexity) from by norm_num,
      iff_false] at this
    exact Bool.not_eq_true _ ▸ by simpa using this
  · exact (complexity_threshold_contract ⟨true, some [], some "", none, none⟩
      ⟨"f", 16, some 1⟩).2.2.2.1.mpr (by norm_num)
  · have := (complexity_threshold_contract ⟨true, some [], some "", none, none⟩
      ⟨"f", 15, some 1⟩).2.2.2.1
    simp only [show ¬ ((15 : Int) < (⟨"f", 15, some 1⟩ : RadonFunc).complexity) from by norm_num,
      iff_false] at this
    exact Bool.not_eq_true _ ▸ by simpa using this

/-- Every AgentType is a key of the orchestrator's agents dict, so the task
filter keeps every requested entry. -/
theorem filter_allAgentTypes (l : List AgentType) :
    l.filter (fun t => allAgentTypes.contains t) = l := by
  apply List.filter_eq_self.mpr
  intro t _
  cases t <;> decide

/-- The result-processing loop pairs results with the requested agent types
positionally, so the produced agent types are exactly the requested list. -/
theorem handleGathered_map_agent_type (reviewOf : AgentType → Except String AgentResult)
    (hag : ∀ t r, reviewOf t = .ok r → r.agent_type = t) :
    ∀ l : List AgentType,
      (handleGathered (l.map reviewOf) l).map (fun r => r.agent_type) = l
  | [] => rfl
  | t :: ts => by
      cases hr : reviewOf t with
      | ok r =>
          simp [handleGathered, hr, hag t r hr,
            handleGathered_map_agent_type reviewOf hag ts]
      | error e =>
          simp [handleGathered, hr,
            handleGathered_map_agent_type reviewOf hag ts]

/-- C2 counterexample: with an explicit empty agent_types list, review_code
returns an empty result list, not the four default agents (only the absent,
None, case defaults to all four). -/
theorem review_code_empty_list_counterexample :
    review_code (fun t => .ok (baseAgentReview t (.ok []) 0 0)) (some []) = [] ∧
    (review_code (fun t => .ok (baseAgentReview t (.ok []) 0 0)) none).length = 4 :=
  ⟨rfl, rfl⟩

/-- C2 amended: only an absent (None) agent_types defaults to all four types in
declaration order; an explicit empty list yields an empty result list; a
nonempty list yields exactly one AgentResult per requested entry, in the
requested order. -/
theorem review_code_order_contract (reviewOf : AgentType → Except String AgentResult)
    (hag : ∀ t r, reviewOf t = .ok r → r.agent_type = t) :
    (review_code reviewOf none).map (fun r => r.agent_type) = allAgentTypes ∧
    review_code reviewOf (some []) = [] ∧
    (∀ l, (review_code reviewOf (some l)).map (fun r => r.agent_type) = l) := by
  have key : ∀ l : List AgentType,
      (review_code reviewOf (some l)).map (fun r => r.agent_type) = l := by
    intro l
    show (handleGathered ((l.filter (fun t => allAgentTypes.contains t)).map reviewOf)
      l).map (fun r => r.agent_type) = l
    rw [filter_allAgentTypes l]
    exact handleGathered_map_agent_type reviewOf hag l
  refine ⟨?_, rfl, key⟩
  show (handleGathered
    ((allAgentTypes.filter (fun t => allAgentTypes.contains t)).map reviewOf)
    allAgentTypes).map (fun r => r.agent_type) = allAgentTypes
  rw [filter_allAgentTypes allAgentTypes]
  exact handleGathered_map_agent_type reviewOf hag allAgentTypes

/-- Witness for C2 amended at a concrete two-element request. -/
theorem review_code_order_contract_witness :
    (review_code (fun t => .ok (baseAgentReview t (.ok []) 0 0))
      (some [.security, .quality])).map (fun r => r.agent_type) =
      [.security, .quality] :=
  (review_code_order_contract (fun t => .ok (baseAgentReview t (.ok []) 0 0))
    (fun t r h => by cases h; rfl)).2.2 [.security, .quality]

/-- The get-or-create repository step never touches the reviews table. -/
theorem getOrCreateRepo_reviews (db : DbState) (url : String) :
    (getOrCreateRepo db url).2.reviews = db.reviews := by
  unfold getOrCreateRepo
  cases hf : db.repositories.find? (fun r => r.url = url) <;> simp [hf]

/-- C7 counterexample: a local-mode create-review request whose file does not
exist fails with status 400 (the claimed 404-class response does not occur);
the reviews table stays empty, though a repository row is created. -/
theorem local_file_not_found_counterexample :
    create_review (fun _ => .error "unused") (fun _ => none) 0
      { repository_url := "local", file_path := some "/nonexistent/file.py" }
      ⟨[], [], []⟩ =
      .httpError 400 "Local file not found: /nonexistent/file.py"
        ⟨[⟨1, "unknown", "local", "unknown", "unknown"⟩], [], []⟩ ∧
    (400 : Nat) ≠ 404 :=
  ⟨rfl, by decide⟩

/-- C7 amended: a local-mode request (file_path truthy, repository_url not
starting with "http") whose path is missing fails with a 400 response whose
detail names the missing file, and no Review row is created (only the
repository get-or-create step has run); an unknown review id fails with a 404
response "Review not found". -/
theorem not_found_handling_contract (reviewOf : AgentType → Except String AgentResult)
    (fs : String → Option String) (now : Nat) (req : ReviewRequest) (db : DbState)
    (p : String) (hp : req.file_path = some p) (hne : p ≠ "")
    (hurl : pyStartsWith req.repository_url "http" = false) (hfs : fs p = none) :
    create_review reviewOf fs now req db =
      .httpError 400 ("Local file not found: " ++ p)
        (getOrCreateRepo db req.repository_url).2 ∧
    (getOrCreateRepo db req.repository_url).2.reviews = db.reviews ∧
    (∀ rid (db2 : DbState), (∀ rv ∈ db2.reviews, rv.id ≠ rid) →
        get_review rid db2 = .error (404, "Review not found")) := by
  refine ⟨?_, getOrCreateRepo_reviews db req.repository_url, ?_⟩
  · rcases hgr : getOrCreateRepo db req.repository_url with ⟨repo, db1⟩
    simp [create_review, hgr, hp, hne, hurl, hfs]
  · intro rid db2 h
    have hf : db2.reviews.find? (fun r => r.id = rid) = none := by
      apply List.find?_eq_none.mpr
      intro x hx
      simpa using h x hx
    simp [get_review, hf]

/-- Witness for C7 amended at a concrete missing file and unknown id. -/
theorem not_found_handling_contract_witness :
    create_review (fun _ => .error "unused") (fun _ => none) 0
      { repository_url := "repo", file_path := some "a.py" } ⟨[], [], []⟩ =
      .httpError 400 "Local file not found: a.py"
        (getOrCreateRepo ⟨[], [], []⟩ "repo").2 ∧
    get_review 7 ⟨[], [], []⟩ = .error (404, "Review not found") :=
  ⟨(not_found_handling_contract (fun _ => .error "unused") (fun _ => none) 0
      { repository_url := "repo", file_path := some "a.py" } ⟨[], [], []⟩
      "a.py" rfl (by decide) (by decide) rfl).1,
   (not_found_handling_contract (fun _ => .error "unused") (fun _ => none) 0
      { repository_url := "repo", file_path := some "a.py" } ⟨[], [], []⟩
      "a.py" rfl (by decide) (by decide) rfl).2.2 7 ⟨[], [], []⟩
      (by intro rv hrv; simp at hrv)⟩

/-- Membership in a scanLines run: an issue is produced exactly by some line at
its enumerated index. -/
theorem mem_scanLines (f : Int → String → Option Issue) :
    ∀ (ls : List String) (n : Int) (i : Issue),
      i ∈ scanLines f n ls ↔
        ∃ k : Nat, ∃ l, ls.get? k = some l ∧ f (n + k) l = some i
  | [], n, i => by simp [scanLines]
  | l0 :: ls, n, i => by
      have castStep : ∀ k : Nat, (n + 1) + (k : Int) = n + ((k + 1 : Nat) : Int) := by
        intro k
        push_cast
        ring
      constructor
      · intro hmem
        rw [scanLines] at hmem
        cases hf : f n l0 with
        | some j =>
            rw [hf] at hmem
            rcases List.mem_cons.mp hmem with rfl | hmem'
            · exact ⟨0, l0, rfl, by simpa using hf⟩
            · rcases (mem_scanLines f ls (n + 1) i).mp hmem' with ⟨k, l, hk, hfk⟩
              exact ⟨k + 1, l, by simpa using hk, by rw [← castStep k]; exact hfk⟩
        | none =>
            rw [hf] at hmem
            rcases (mem_scanLines f ls (n + 1) i).mp hmem with ⟨k, l, hk, hfk⟩
            exact ⟨k + 1, l, by simpa using hk, by rw [← castStep k]; exact hfk⟩
      · rintro ⟨k, l, hk, hfk⟩
        rw [scanLines]
        cases k with
        | zero =>
            simp only [List.get?_cons_zero, Option.some_inj] at hk
            subst hk
            simp only [Nat.cast_zero, add_zero] at hfk
            rw [hfk]
            exact List.mem_cons_self _ _
        | succ k =>
            simp only [List.get?_cons_succ] at hk
            have hmem' : i ∈ scanLines f (n + 1) ls :=
              (mem_scanLines f ls (n + 1) i).mpr ⟨k, l, hk, by rw [castStep k]; exact hfk⟩
            cases hf : f n l0 with
            | some j => exact List.mem_cons_of_mem _ hmem'
            | none => exact hmem'

/-- A producer that never fires makes scanLines empty. -/
theorem scanLines_eq_nil (f : Int → String → Option Issue)
    (hf : ∀ m l, f m l = none) :
    ∀ (ls : List String) (n : Int), scanLines f n ls = []
  | [], _ => rfl
  | l0 :: ls, n => by
      rw [scanLines, hf n l0, scanLines_eq_nil f hf ls (n + 1)]

/-- The per-line check fires exactly on lines matching the random pattern with
a security keyword, when the file does not use secrets, yielding the fixed
HIGH insecure_random issue at that line number. -/
theorem insecureRandomLineIssue_eq_some (us : Bool) (m : Int) (l : String) (i : Issue) :
    insecureRandomLineIssue us m l = some i ↔
      (matchesRandomPattern l = true ∧ us = false ∧
       (securityKeywords.any fun k => strContains (pyToLower l) k) = true ∧
       i = { severity := .high
             issue_type := "insecure_random"
             message := "Using random module for security-sensitive operations"
             line_number := some m
             suggestion := some
               "Use secrets module for cryptographically secure random number generation."
             metadata := some [("line", .str (pyTrim l))] }) := by
  unfold insecureRandomLineIssue
  by_cases h1 : (matchesRandomPattern l && !us) = true
  · rw [if_pos h1]
    have hm : matchesRandomPattern l = true := by
      have := h1
      simp only [Bool.and_eq_true] at this
      exact this.1
    have hus : us = false := by
      have := h1
      simp only [Bool.and_eq_true, Bool.not_eq_true'] at this
      exact this.2
    by_cases h2 : (securityKeywords.any fun k => strContains (pyToLower l) k) = true
    · rw [if_pos h2]
      simp [hm, hus, h2, eq_comm]
    · rw [if_neg h2]
      simp [h2]
  · rw [if_neg h1]
    simp only [Bool.and_eq_true, Bool.not_eq_true'] at h1
    push_neg at h1
    constructor
    · intro h
      cases h
    · rintro ⟨hm, hus, _⟩
      exact absurd (h1 hm) (by simp [hus])

/-- C6: the Security Agent emits a HIGH insecure_random issue at a line exactly
when the line matches the random-call pattern, the lowercased line holds a
security keyword, and the whole file (not just the line) does not contain
"secrets" case-insensitively; any occurrence of "secrets" in the file
suppresses every such issue. -/
theorem insecure_random_contract (code : String) :
    (∀ (n : Nat) (line : String), (pySplitChar '\n' code).get? n = some line →
        ((∃ i ∈ check_insecure_random code, i.line_number = some ((n : Int) + 1)) ↔
          (matchesRandomPattern line = true ∧
           strContains (pyToLower code) "secrets" = false ∧
           (securityKeywords.any fun k => strContains (pyToLower line) k) = true))) ∧
    (∀ i ∈ check_insecure_random code,
        i.severity = .high ∧ i.issue_type = "insecure_random") ∧
    (strContains (pyToLower code) "secrets" = true →
        check_insecure_random code = []) := by
  have heq : check_insecure_random code =
      scanLines
        (insecureRandomLineIssue (strContains (pyToLower code) "secrets")) 1
        (pySplitChar '\n' code) := rfl
  refine ⟨?_, ?_, ?_⟩
  · intro n line hline
    rw [heq]
    constructor
    · rintro ⟨i, hi, hln⟩
      rcases (mem_scanLines _ (pySplitChar '\n' code) 1 i).mp hi with ⟨k, l, hk, hfk⟩
      rcases (insecureRandomLineIssue_eq_some _ (1 + (k : Int)) l i).mp hfk with
        ⟨hm, husf, hkw, hi0⟩
      have hkn : k = n := by
        rw [hi0] at hln
        simp only [Option.some_inj] at hln
        omega
      subst hkn
      rw [hk] at hline
      cases hline
      exact ⟨hm, husf, hkw⟩
    · rintro ⟨hm, husf, hkw⟩
      refine ⟨_, (mem_scanLines _ (pySplitChar '\n' code) 1 _).mpr
        ⟨n, line, hline,
          (insecureRandomLineIssue_eq_some _ (1 + (n : Int)) line _).mpr
            ⟨hm, husf, hkw, rfl⟩⟩, ?_⟩
      simp [add_comm]
  · intro i hi
    rw [heq] at hi
    rcases (mem_scanLines _ (pySplitChar '\n' code) 1 i).mp hi with ⟨k, l, hk, hfk⟩
    rcases (insecureRandomLineIssue_eq_some _ (1 + (k : Int)) l i).mp hfk with
      ⟨_, _, _, hi0⟩
    rw [hi0]
    exact ⟨rfl, rfl⟩
  · intro hsec
    rw [heq]
    apply scanLines_eq_nil
    intro m l
    unfold insecureRandomLineIssue
    rw [hsec]
    simp

/-- Witness for C6: a keyword line using random.randint is flagged at line 1,
and the same pattern is suppressed by a file-wide "secrets" occurrence. -/
theorem insecure_random_contract_witness :
    (∃ i ∈ check_insecure_random "password = random.randint(1, 10)",
        i.line_number = some 1) ∧
    check_insecure_random "import secrets\ntoken = random.randint(1, 10)" = [] := by
  constructor
  · obtain ⟨i, hi, hl⟩ :=
      ((insecure_random_contract "password = random.randint(1, 10)").1 0
        "password = random.randint(1, 10)" (by decide)).mpr
        ⟨by decide, by decide, by decide⟩
    exact ⟨i, hi, by simpa using hl⟩
  · exact (insecure_random_contract
      "import secrets\ntoken = random.randint(1, 10)").2.2 (by decide)

/-- If any line of the batch fails to parse, the whole accumulation fails,
whatever was already accumulated. -/
theorem parseFlakeLines_error :
    ∀ (ls : List String) (acc : List FlakeIssue) (l e : String),
      l ∈ ls → parseFlakeLine l = .error e →
      ∃ m, parseFlakeLines acc ls = .error m
  | [], _, _, _, h, _ => absurd h (List.not_mem_nil _)
  | l0 :: ls, acc, l, e, h, he => by
      cases hl0 : parseFlakeLine l0 with
      | error m => exact ⟨m, by simp [parseFlakeLines, hl0]⟩
      | ok o =>
          have hmem : l ∈ ls := by
            rcases List.mem_cons.mp h with rfl | h'
            · rw [he] at hl0
              cases hl0
            · exact h'
          cases o with
          | none =>
              simpa [parseFlakeLines, hl0] using
                parseFlakeLines_error ls acc l e hmem he
          | some i =>
              simpa [parseFlakeLines, hl0] using
                parseFlakeLines_error ls (acc ++ [i]) l e hmem he

/-- C10: run_flake8's silent skip applies exactly to stdout lines splitting
into fewer than 4 colon parts; a line with at least 4 parts whose line or
column field int() rejects makes the whole parse raise, so the entire call
returns the success-false shape with an empty issues list, discarding every
finding already parsed from well-formed lines of the same output. -/
theorem flake8_malformed_line_contract :
    (∀ line : String, line ≠ "" → (pySplit3 ':' line).length < 4 →
        parseFlakeLine line = .ok none) ∧
    (∀ line : String, 4 ≤ (pySplit3 ':' line).length →
        (∀ e, pyInt ((pySplit3 ':' line).getD 1 "") = .error e →
            parseFlakeLine line = .error e) ∧
        (∀ v e, pyInt ((pySplit3 ':' line).getD 1 "") = .ok v →
            pyInt ((pySplit3 ':' line).getD 2 "") = .error e →
            parseFlakeLine line = .error e)) ∧
    (∀ (stdout stderr l e : String), l ∈ pySplitChar '\n' (pyTrim stdout) →
        parseFlakeLine l = .error e → stdout ≠ "" →
        ∃ m, run_flake8 (.completed stdout stderr) =
          ⟨false, some [], some m, none⟩) := by
  refine ⟨?_, ?_, ?_⟩
  · intro line h1 h2
    simp [parseFlakeLine, h1, Nat.not_le.mpr h2]
  · intro line hlen
    have hne : line ≠ "" := by
      intro h
      rw [h] at hlen
      revert hlen
      decide
    constructor
    · intro e he
      simp only [parseFlakeLine]
      rw [if_neg hne, if_pos hlen, he]
    · intro v e hv he
      simp only [parseFlakeLine]
      rw [if_neg hne, if_pos hlen, hv, he]
  · intro stdout stderr l e hl he hne
    obtain ⟨m, hm⟩ := parseFlakeLines_error _ [] l e hl he
    refine ⟨m, ?_⟩
    have hps : parseFlakeStdout stdout = .error m := by
      unfold parseFlakeStdout
      rw [if_neg hne]
      exact hm
    simp [run_flake8, run_flake8_body, procRun, hps]

/-- Witness for C10: one well-formed line parses into a finding on its own, yet
the whole call fails once a later line's column field is not an integer. -/
theorem flake8_malformed_line_contract_witness :
    parseFlakeLine "a.py:1:2: E501 msg" =
      .ok (some ⟨"a.py", 1, 2, "E501", "E501 msg"⟩) ∧
    ∃ m, run_flake8 (.completed "a.py:1:2: E501 msg\nf.py:x:3: E1 m" "w") =
      ⟨false, some [], some m, none⟩ :=
  ⟨rfl,
   flake8_malformed_line_contract.2.2 "a.py:1:2: E501 msg\nf.py:x:3: E1 m" "w"
     "f.py:x:3: E1 m" "invalid literal for int() with base 10: x"
     (by decide) rfl (by decide)⟩

/-- The scan loops flattened to (file path, per-file AgentResult) steps in
processing order. -/
def scanItems : List (String × List AgentResult) → List (String × AgentResult)
  | [] => []
  | (p, rs) :: fs => rs.map (fun r => (p, r)) ++ scanItems fs

/-- One flattened aggregation step. -/
def aggItemStep (d : AggDict) (pr : String × AgentResult) : AggDict :=
  aggResultStep pr.1 d pr.2

/-- Spec-side: the processed per-file results of agent type t that carry at
least one issue (results with no issues leave the aggregation dict untouched). -/
def relFilter (t : AgentType) : List (String × AgentResult) → List (String × AgentResult)
  | [] => []
  | pr :: rest =>
      if pr.2.agent_type = t ∧ pr.2.issues ≠ [] then pr :: relFilter t rest
      else relFilter t rest

/-- Spec-side: the concatenated path-stamped issues of agent type t. -/
def relIssues (t : AgentType) (items : List (String × AgentResult)) : List Issue :=
  ((relFilter t items).map (fun pr => pr.2.issues.map (prefixIssue pr.1))).flatten

/-- Spec-side: each relevant result contributes its execution_time once per
issue it carries. -/
def relTime (t : AgentType) (items : List (String × AgentResult)) : ℚ :=
  ((relFilter t items).map
    (fun pr => (pr.2.issues.length : ℚ) * pr.2.execution_time)).sum

/-- Spec-side: the conjunction of success flags over the relevant results. -/
def relSuccess (t : AgentType) (items : List (String × AgentResult)) : Bool :=
  (relFilter t items).all (fun pr => pr.2.success)

/-- Lookup after a dict assignment. -/
theorem aggFind_aggSet (d : AggDict) (t : AgentType) (v : AggEntry) (s : AgentType) :
    aggFind (aggSet d t v) s = if s = t then some v else aggFind d s := by
  induction d with
  | nil =>
      by_cases h : s = t
      · simp [aggSet, aggFind, h]
      · simp [aggSet, aggFind, h, Ne.symm h]
  | cons kv rest ih =>
      rcases kv with ⟨k0, w⟩
      by_cases hk : k0 = t
      · subst hk
        by_cases hs : s = k0
        · subst hs
          simp [aggSet, aggFind]
        · simp [aggSet, aggFind, hs, Ne.symm hs]
      · by_cases hs : k0 = s
        · subst hs
          simp [aggSet, aggFind, hk, Ne.symm hk]
        · simp [aggSet, aggFind, hk, hs, ih]

/-- Effect of the inner issue loop on the entry of the result's own agent type:
issues are appended in order, execution_time is added once per issue, and the
success flag is conjoined with the result's flag. -/
theorem foldl_aggIssueStep_find (p : String) (r : AgentResult) :
    ∀ (is : List Issue) (i : Issue) (d : AggDict),
      aggFind ((i :: is).foldl (aggIssueStep p r) d) r.agent_type =
        some { issues := ((aggFind d r.agent_type).getD ⟨[], 0, true⟩).issues ++
                 ((i :: is).map (prefixIssue p))
               total_time := ((aggFind d r.agent_type).getD ⟨[], 0, true⟩).total_time +
                 (((i :: is).length : ℚ)) * r.execution_time
               success := ((aggFind d r.agent_type).getD ⟨[], 0, true⟩).success &&
                 r.success }
  | [], i, d => by
      show aggFind (aggIssueStep p r d i) r.agent_type = _
      unfold aggIssueStep
      rw [aggFind_aggSet, if_pos rfl]
      apply congrArg some
      cases hrs : r.success <;> simp [hrs]
  | j :: is, i, d => by
      have step : ((i :: j :: is).foldl (aggIssueStep p r) d) =
          ((j :: is).foldl (aggIssueStep p r) (aggIssueStep p r d i)) := rfl
      have hfind : aggFind (aggIssueStep p r d i) r.agent_type =
          some { issues := ((aggFind d r.agent_type).getD ⟨[], 0, true⟩).issues ++
                   [prefixIssue p i]
                 total_time := ((aggFind d r.agent_type).getD ⟨[], 0, true⟩).total_time +
                   r.execution_time
                 success := if r.success
                   then ((aggFind d r.agent_type).getD ⟨[], 0, true⟩).success
                   else false } := by
        unfold aggIssueStep
        rw [aggFind_aggSet, if_pos rfl]
      rw [step, foldl_aggIssueStep_find p r is j (aggIssueStep p r d i), hfind]
      simp only [Option.getD_some]
      apply congrArg some
      rw [AggEntry.mk.injEq]
      refine ⟨?_, ?_, ?_⟩
      · simp [List.append_assoc]
      · simp only [List.length_cons]
        push_cast
        ring
      · cases hrs : r.success <;> simp [hrs]

/-- The inner issue loop never touches entries of other agent types. -/
theorem foldl_aggIssueStep_find_ne (p : String) (r : AgentResult) (s : AgentType)
    (hs : s ≠ r.agent_type) :
    ∀ (is : List Issue) (d : AggDict),
      aggFind (is.foldl (aggIssueStep p r) d) s = aggFind d s
  | [], _ => rfl
  | i :: is, d => by
      rw [List.foldl_cons, foldl_aggIssueStep_find_ne p r s hs is _]
      unfold aggIssueStep
      rw [aggFind_aggSet, if_neg hs]

/-- Effect of one per-file result on its own agent type's entry, when it
carries at least one issue. -/
theorem aggResultStep_find_rel (p : String) (r : AgentResult) (d : AggDict)
    (hiss : r.issues ≠ []) :
    aggFind (aggResultStep p d r) r.agent_type =
      some { issues := ((aggFind d r.agent_type).getD ⟨[], 0, true⟩).issues ++
               (r.issues.map (prefixIssue p))
             total_time := ((aggFind d r.agent_type).getD ⟨[], 0, true⟩).total_time +
               ((r.issues.length : ℚ)) * r.execution_time
             success := ((aggFind d r.agent_type).getD ⟨[], 0, true⟩).success &&
               r.success } := by
  rcases hI : r.issues with _ | ⟨i, is⟩
  · exact absurd hI hiss
  · unfold aggResultStep
    rw [hI]
    exact foldl_aggIssueStep_find p r is i d

/-- A result with no issues leaves the dict unchanged. -/
theorem aggResultStep_nil (p : String) (r : AgentResult) (d : AggDict)
    (h : r.issues = []) : aggResultStep p d r = d := by
  unfold aggResultStep
  rw [h]
  rfl

/-- A per-file result never touches entries of other agent types. -/
theorem aggResultStep_find_ne (p : String) (r : AgentResult) (d : AggDict)
    (s : AgentType) (hs : s ≠ r.agent_type) :
    aggFind (aggResultStep p d r) s = aggFind d s :=
  foldl_aggIssueStep_find_ne p r s hs r.issues d

/-- Effect of the flattened scan fold on the entry of agent type t: the entry
exists exactly when some relevant result was processed, and then holds the
concatenated stamped issues, the per-issue time sum and the conjoined flags. -/
theorem foldl_aggItemStep_find (t : AgentType) :
    ∀ (items : List (String × AgentResult)) (d : AggDict),
      aggFind (items.foldl aggItemStep d) t =
        if relFilter t items = [] then aggFind d t
        else
          some { issues := ((aggFind d t).getD ⟨[], 0, true⟩).issues ++ relIssues t items
                 total_time := ((aggFind d t).getD ⟨[], 0, true⟩).total_time +
                   relTime t items
                 success := ((aggFind d t).getD ⟨[], 0, true⟩).success &&
                   relSuccess t items }
  | [], d => by simp [relFilter]
  | pr :: items, d => by
      rw [List.foldl_cons]
      by_cases hrel : pr.2.agent_type = t ∧ pr.2.issues ≠ []
      · obtain ⟨hat, hiss⟩ := hrel
        have hfind : aggFind (aggItemStep d pr) t =
            some { issues := ((aggFind d t).getD ⟨[], 0, true⟩).issues ++
                     (pr.2.issues.map (prefixIssue pr.1))
                   total_time := ((aggFind d t).getD ⟨[], 0, true⟩).total_time +
                     ((pr.2.issues.length : ℚ)) * pr.2.execution_time
                   success := ((aggFind d t).getD ⟨[], 0, true⟩).success &&
                     pr.2.success } := by
          have h0 := aggResultStep_find_rel pr.1 pr.2 d hiss
          rw [hat] at h0
          exact h0
        have hcons : relFilter t (pr :: items) = pr :: relFilter t items := by
          rw [relFilter, if_pos ⟨hat, hiss⟩]
        rw [foldl_aggItemStep_find t items (aggItemStep d pr), hcons]
        rw [if_neg (List.cons_ne_nil pr (relFilter t items))]
        by_cases hrf : relFilter t items = []
        · rw [if_pos hrf, hfind]
          apply congrArg some
          rw [AggEntry.mk.injEq]
          refine ⟨?_, ?_, ?_⟩
          · simp [relIssues, hcons, hrf]
          · simp [relTime, hcons, hrf]
          · simp [relSuccess, hcons, hrf]
        · rw [if_neg hrf, hfind]
          simp only [Option.getD_some]
          apply congrArg some
          rw [AggEntry.mk.injEq]
          refine ⟨?_, ?_, ?_⟩
          · simp [relIssues, hcons, List.append_assoc]
          · simp only [relTime, hcons, List.map_cons, List.sum_cons]
            ring
          · simp only [relSuccess, hcons, List.all_cons, Bool.and_assoc]
      · have hskip : relFilter t (pr :: items) = relFilter t items := by
          rw [relFilter, if_neg hrel]
        by_cases hat : pr.2.agent_type = t
        · have hiss : pr.2.issues = [] := by
            by_contra hne
            exact hrel ⟨hat, hne⟩
          have hd : aggItemStep d pr = d := aggResultStep_nil pr.1 pr.2 d hiss
          have hIs : relIssues t (pr :: items) = relIssues t items := by
            unfold relIssues
            rw [hskip]
          have hTi : relTime t (pr :: items) = relTime t items := by
            unfold relTime
            rw [hskip]
          have hSu : relSuccess t (pr :: items) = relSuccess t items := by
            unfold relSuccess
            rw [hskip]
          rw [hd, foldl_aggItemStep_find t items d, hskip, hIs, hTi, hSu]
        · have hfind : aggFind (aggItemStep d pr) t = aggFind d t :=
            aggResultStep_find_ne pr.1 pr.2 d t (fun h => hat h.symm)
          have hIs : relIssues t (pr :: items) = relIssues t items := by
            unfold relIssues
            rw [hskip]
          have hTi : relTime t (pr :: items) = relTime t items := by
            unfold relTime
            rw [hskip]
          have hSu : relSuccess t (pr :: items) = relSuccess t items := by
            unfold relSuccess
            rw [hskip]
          rw [foldl_aggItemStep_find t items (aggItemStep d pr), hfind, hskip,
            hIs, hTi, hSu]

/-- The nested scan fold equals the flattened fold. -/
theorem scanAggregate_eq (files : List (String × List AgentResult)) :
    scanAggregate files = (scanItems files).foldl aggItemStep [] := by
  suffices h : ∀ (fs : List (String × List AgentResult)) (d : AggDict),
      fs.foldl aggFileStep d = (scanItems fs).foldl aggItemStep d from h files []
  intro fs
  induction fs with
  | nil => intro d; rfl
  | cons f fs ih =>
      intro d
      rcases f with ⟨p, rs⟩
      rw [List.foldl_cons, ih, scanItems, List.foldl_append, List.foldl_map]
      rfl

/-- The keys of the aggregation dict. -/
def aggKeys (d : AggDict) : List AgentType :=
  d.map Prod.fst

/-- Assignment only ever adds the assigned key. -/
theorem mem_aggKeys_aggSet (t : AgentType) (v : AggEntry) (s : AgentType) :
    ∀ d : AggDict, s ∈ aggKeys (aggSet d t v) ↔ s ∈ aggKeys d ∨ s = t
  | [] => by simp [aggSet, aggKeys]
  | (k0, w) :: rest => by
      by_cases hk : k0 = t
      · subst hk
        simp only [aggSet, if_pos rfl]
        show s ∈ k0 :: aggKeys rest ↔ s ∈ k0 :: aggKeys rest ∨ s = k0
        constructor
        · exact Or.inl
        · rintro (h | rfl)
          · exact h
          · exact List.mem_cons_self _ _
      · simp only [aggSet, if_neg hk]
        show s ∈ k0 :: aggKeys (aggSet rest t v) ↔ s ∈ k0 :: aggKeys rest ∨ s = t
        simp only [List.mem_cons, mem_aggKeys_aggSet t v s rest]
        tauto

/-- Assignment preserves distinctness of keys. -/
theorem nodup_aggKeys_aggSet (t : AgentType) (v : AggEntry) :
    ∀ d : AggDict, (aggKeys d).Nodup → (aggKeys (aggSet d t v)).Nodup
  | [], _ => by simp [aggSet, aggKeys]
  | (k0, w) :: rest, h => by
      rw [aggKeys, List.map_cons, List.nodup_cons] at h
      by_cases hk : k0 = t
      · subst hk
        simpa [aggSet, aggKeys, List.nodup_cons] using h
      · rw [aggSet, if_neg hk, aggKeys, List.map_cons, List.nodup_cons]
        refine ⟨?_, nodup_aggKeys_aggSet t v rest h.2⟩
        intro hmem
        rcases (mem_aggKeys_aggSet t v k0 rest).mp hmem with h1 | h1
        · exact h.1 h1
        · exact hk h1

/-- The issue loop preserves distinctness of keys. -/
theorem nodup_aggKeys_foldl_issues (p : String) (r : AgentResult) :
    ∀ (is : List Issue) (d : AggDict),
      (aggKeys d).Nodup → (aggKeys (is.foldl (aggIssueStep p r) d)).Nodup
  | [], _, h => h
  | i :: is, d, h => by
      rw [List.foldl_cons]
      exact nodup_aggKeys_foldl_issues p r is _
        (nodup_aggKeys_aggSet r.agent_type _ d h)

/-- The flattened scan fold preserves distinctness of keys. -/
theorem nodup_aggKeys_foldl_items :
    ∀ (items : List (String × AgentResult)) (d : AggDict),
      (aggKeys d).Nodup → (aggKeys (items.foldl aggItemStep d)).Nodup
  | [], _, h => h
  | pr :: items, d, h => by
      rw [List.foldl_cons]
      exact nodup_aggKeys_foldl_items items _
        (nodup_aggKeys_foldl_issues pr.1 pr.2 pr.2.issues d h)

/-- The aggregation dict of any scan has distinct agent-type keys. -/
theorem nodup_aggKeys_scanAggregate (files : List (String × List AgentResult)) :
    (aggKeys (scanAggregate files)).Nodup := by
  rw [scanAggregate_eq]
  exact nodup_aggKeys_foldl_items (scanItems files) [] (by simp [aggKeys])

/-- A key that is absent has no entry. -/
theorem aggFind_eq_none_of_not_mem :
    ∀ (d : AggDict) (t : AgentType), t ∉ aggKeys d → aggFind d t = none
  | [], _, _ => rfl
  | (k0, w) :: rest, t, h => by
      rw [aggKeys, List.map_cons, List.mem_cons] at h
      push_neg at h
      rw [aggFind, if_neg (fun hk => h.1 hk.symm)]
      exact aggFind_eq_none_of_not_mem rest t h.2

/-- With distinct keys, filtering the response list on one agent type yields
the entry of that type, if any. -/
theorem dictToResults_filter (t : AgentType) :
    ∀ d : AggDict, (aggKeys d).Nodup →
      (dictToResults d).filter (fun r => r.agent_type == t) =
        (match aggFind d t with
         | none => []
         | some e =>
            [{ agent_type := t
               success := e.success
               execution_time := e.total_time
               issues := e.issues
               error_message := none
               metadata := none }])
  | [], _ => rfl
  | (k0, v) :: rest, h => by
      rw [aggKeys, List.map_cons, List.nodup_cons] at h
      by_cases hk : k0 = t
      · subst hk
        have hnone : aggFind rest k0 = none :=
          aggFind_eq_none_of_not_mem rest k0 h.1
        have htail := dictToResults_filter k0 rest h.2
        rw [hnone] at htail
        simp only [dictToResults, List.map_cons, List.filter_cons]
        rw [aggFind, if_pos rfl]
        simpa [dictToResults] using htail
      · have htail := dictToResults_filter t rest h.2
        simp only [dictToResults, List.map_cons, List.filter_cons]
        rw [aggFind, if_neg hk]
        simpa [dictToResults, hk] using htail

/-- C1 amended: in a multi-file scan, the response holds at most one
AgentResult per agent type; it exists exactly when some per-file result of that
type carried at least one issue, its issues are the path-stamped issues
concatenated in processing order, its execution_time accumulates each relevant
per-file execution_time once per issue of that result (not once per file), and
its success flag is the conjunction of success flags over the per-file results
that carried at least one issue only (issue-less results, in particular failed
ones, contribute nothing). -/
theorem scan_aggregation_contract (files : List (String × List AgentResult))
    (t : AgentType) :
    (aggregateScanResults files).filter (fun r => r.agent_type == t) =
      (if relFilter t (scanItems files) = [] then []
       else
        [{ agent_type := t
           success := relSuccess t (scanItems files)
           execution_time := relTime t (scanItems files)
           issues := relIssues t (scanItems files)
           error_message := none
           metadata := none }]) := by
  unfold aggregateScanResults
  rw [dictToResults_filter t (scanAggregate files) (nodup_aggKeys_scanAggregate files)]
  rw [scanAggregate_eq, foldl_aggItemStep_find t (scanItems files) []]
  by_cases h : relFilter t (scanItems files) = []
  · rw [if_pos h, if_pos h]
    rfl
  · rw [if_neg h, if_neg h]
    simp [aggFind]

/-- The sample issue of the C1 counterexample. -/
def scanIssueA : Issue :=
  { severity := .low, issue_type := "style", message := "m" }

/-- A successful quality result with one issue and execution_time 1. -/
def scanResultA : AgentResult :=
  { agent_type := .quality, success := true, execution_time := 1,
    issues := [scanIssueA] }

/-- A failed quality result with no issues and execution_time 1. -/
def scanResultB : AgentResult :=
  { agent_type := .quality, success := false, execution_time := 1, issues := [],
    error_message := some "boom" }

/-- A successful quality result with two issues and execution_time 1. -/
def scanResultC : AgentResult :=
  { agent_type := .quality, success := true, execution_time := 1,
    issues := [scanIssueA, { severity := .low, issue_type := "style2", message := "m2" }] }

/-- C1 counterexample: over two files whose quality results are scanResultA
(success, 1 issue, time 1) and scanResultB (failure, 0 issues, time 1), the
merged quality result has success true — not the claimed conjunction false —
and execution_time 1 — not the claimed per-file sum 2; moreover a single file
whose result carries 2 issues at time 1 is merged with execution_time 2, so a
file's time is not counted once. -/
theorem scan_aggregation_counterexample :
    (aggregateScanResults [("a.py", [scanResultA]), ("b.py", [scanResultB])]).map
        (fun r => (r.agent_type, r.success, r.execution_time)) =
      [(.quality, true, 1)] ∧
    (scanResultA.success && scanResultB.success) = false ∧
    scanResultA.execution_time + scanResultB.execution_time = 2 ∧
    (aggregateScanResults [("c.py", [scanResultC])]).map
        (fun r => r.execution_time) = [2] ∧
    scanResultC.execution_time = 1 := by
  refine ⟨?_, rfl, ?_, ?_, rfl⟩
  · norm_num [aggregateScanResults, dictToResults, scanAggregate, aggFileStep,
      aggResultStep, aggIssueStep, aggFind, aggSet, scanResultA, scanResultB,
      scanIssueA]
  · norm_num [scanResultA, scanResultB]
  · norm_num [aggregateScanResults, dictToResults, scanAggregate, aggFileStep,
      aggResultStep, aggIssueStep, aggFind, aggSet, scanResultC, scanIssueA]
